import Mathlib

/-!
Verification of the JP_Generator repository: a shallow embedding of its
generation model (phonology, morphology, syntax, vocabulary store) in Lean,
with theorems settling the specification claims.

Randomness in the source (`random.choice`, `random.random`, `random.randint`)
is modelled by explicit choice parameters: each `random.choice(xs)` becomes a
parameter constrained (by hypothesis) to be a member of the embedded list
`xs`; each `random.random() < 0.3` test becomes a `Bool` parameter; each
`random.randint(2, 3)` becomes a `Nat` parameter constrained to be 2 or 3.
-/

namespace JP

/-! ## PhonologySystem -/

/-- The consonant set of `PhonologySystem` (default field value). -/
def consonants : List String := ["k", "s", "t", "n", "h", "m", "y", "r", "w"]

/-- The vowel set of `PhonologySystem` (default field value). -/
def vowels : List String := ["a", "i", "u", "e", "o"]

/-- The nasal-ending options `n_end` of `PhonologySystem`. -/
def n_end : List String := ["n", ""]

/-- The verb suffix list hard-coded in `generate_word`. -/
def verb_suffixes : List String := ["ru", "mu", "su", "ku", "ta"]

/-- The noun suffix list hard-coded in `generate_word`. -/
def noun_suffixes : List String := ["ko", "mi", "ra", "to", "na"]

/-- The random draws consumed by one call of `generate_syllable`: the chosen
consonant, the chosen vowel, the outcome of the 30% test, and the chosen
nasal-ending option. -/
structure SylChoice where
  c : String
  v : String
  addNasal : Bool
  n : String

/-- A `SylChoice` is valid when each chosen element belongs to the set
`random.choice` drew it from. -/
def ValidSyl (ch : SylChoice) : Prop :=
  ch.c ∈ consonants ∧ ch.v ∈ vowels ∧ ch.n ∈ n_end

/-- `PhonologySystem.generate_syllable`: consonant plus vowel, with the nasal
ending appended when the 30% test fired. -/
def generate_syllable (ch : SylChoice) : String :=
  ch.c ++ ch.v ++ (if ch.addNasal then ch.n else "")

/-- The syllable-concatenation loop of `generate_word`: `word = ""` followed by
`word += generate_syllable()` repeated `count` times, drawing the i-th
syllable choices from the stream `syls`. -/
def buildWord (syls : Nat → SylChoice) : Nat → String
  | 0 => ""
  | k + 1 => buildWord syls k ++ generate_syllable (syls k)

/-- `PhonologySystem.generate_word`.  `syllable_count = none` models the
Python default `None`, in which case the `random.randint(2, 3)` draw `scDraw`
is used.  `verbSuf` and `nounSuf` are the `random.choice` draws from the verb
and noun suffix lists. -/
def generate_word (syllable_count : Option Nat) (scDraw : Nat)
    (word_type : String) (syls : Nat → SylChoice)
    (verbSuf nounSuf : String) : String :=
  let count := syllable_count.getD scDraw
  let word := buildWord syls count
  if word_type = "verb" then word ++ verbSuf
  else if word_type = "noun" then word ++ nounSuf
  else word

/-! ## MorphologySystem -/

/-- The `MorphologyRule` dataclass. -/
structure MorphologyRule where
  name : String
  rule_type : String
  marker : String
  meaning : String
deriving DecidableEq

/-- `MorphologySystem.add_rule`: appends a new rule to the ordered list. -/
def add_rule (rules : List MorphologyRule)
    (name rule_type marker meaning : String) : List MorphologyRule :=
  rules ++ [⟨name, rule_type, marker, meaning⟩]

/-- `MorphologySystem.apply_morphology`: scan the rules in order; on a name
match return `marker + base_word` for a prefix rule and `base_word + marker`
for a suffix rule.  A matching rule whose `rule_type` is neither string falls
through both branches of the Python `if`/`elif` and the loop continues; with
no match at all the base word is returned unchanged. -/
def apply_morphology (rules : List MorphologyRule)
    (base_word rule_name : String) : String :=
  match rules with
  | [] => base_word
  | r :: rest =>
    if r.name = rule_name then
      if r.rule_type = "prefix" then r.marker ++ base_word
      else if r.rule_type = "suffix" then base_word ++ r.marker
      else apply_morphology rest base_word rule_name
    else apply_morphology rest base_word rule_name

/-- `JapaneseLanguageCreatorUI.init_default_rules`: the rule list installed at
construction. -/
def init_default_rules : List MorphologyRule :=
  add_rule
    (add_rule
      (add_rule [] "plural" "suffix" "tachi" "複數")
      "past" "suffix" "ta" "過去式")
    "negative" "prefix" "fu" "否定"

/-! ## SyntaxSystem -/

/-- The subject particle list of `SyntaxSystem`. -/
def particles_subject : List String := ["wa", "ga"]

/-- The object particle list of `SyntaxSystem`. -/
def particles_object : List String := ["wo"]

/-- The direction particle list of `SyntaxSystem`. -/
def particles_direction : List String := ["e", "o"]

/-- The `parts` list built by `SyntaxSystem.generate_sentence`: subject phrase
always; object phrase when `obj` is truthy; adverb phrase when `add_adverb`
and `adverb` is truthy; the verb last.  `sp`, `op`, `dp` are the
`random.choice` draws from the subject, object and direction particle
lists. -/
def sentence_parts (subject verb obj : String) (add_adverb : Bool)
    (adverb sp op dp : String) : List String :=
  let parts := [subject ++ sp]
  let parts := if obj ≠ "" then parts ++ [obj ++ op] else parts
  let parts := if add_adverb ∧ adverb ≠ "" then parts ++ [adverb ++ dp] else parts
  parts ++ [verb]

/-- `SyntaxSystem.generate_sentence`: the parts joined by single spaces with a
trailing period. -/
def generate_sentence (subject verb obj : String) (add_adverb : Bool)
    (adverb sp op dp : String) : String :=
  String.intercalate " " (sentence_parts subject verb obj add_adverb adverb sp op dp) ++ "."

/-! ## Vocabulary store (orchestration level)

The store is `defaultdict(list)`: a total map from word-class label to the
list of recorded words, every class starting empty. -/

/-- The store as freshly constructed: every class maps to the empty list. -/
def emptyStore : String → List String := fun _ => []

/-- Point update of the store at one class label. -/
def updateStore (v : String → List String) (k : String)
    (l : List String) : String → List String :=
  fun q => if q = k then l else v q

/-- `self.vocabulary[k].append(w)`. -/
def recordWord (v : String → List String) (k w : String) : String → List String :=
  updateStore v k (v k ++ [w])

/-- `random.choice` on a stored word list, with the randomness as an index:
returns `none` exactly when the list is empty (Python raises `IndexError`). -/
def randomChoice (l : List String) (i : Nat) : Option String :=
  l.get? (i % l.length)

/-- Store effect of `JapaneseLanguageCreatorUI.generate_vocabulary`: one word
appended per entry of the `word_types` sequence
noun, verb, noun, adjective, noun.  `w1 … w5` are the five generated words. -/
def generate_vocabulary_store (v : String → List String)
    (w1 w2 w3 w4 w5 : String) : String → List String :=
  recordWord (recordWord (recordWord (recordWord (recordWord
    v "noun" w1) "verb" w2) "noun" w3) "adjective" w4) "noun" w5

/-- The fallback-seeding prologue of `generate_sentences`: when the noun class
is empty append three generated nouns, and when the verb class is then empty
append two generated verbs.  `n1 n2 n3` and `x1 x2` are the generated
fallback words. -/
def ensure_vocab (v : String → List String)
    (n1 n2 n3 x1 x2 : String) : String → List String :=
  let v1 := if v "noun" = [] then
      recordWord (recordWord (recordWord v "noun" n1) "noun" n2) "noun" n3
    else v
  if v1 "verb" = [] then recordWord (recordWord v1 "verb" x1) "verb" x2
  else v1

/-- Store effect of `JapaneseLanguageCreatorUI.generate_sentences`: only the
fallback-seeding prologue mutates the store; the sentence loop reads it
(`random.choice`) without appending. -/
def generate_sentences_store (v : String → List String)
    (n1 n2 n3 x1 x2 : String) : String → List String :=
  ensure_vocab v n1 n2 n3 x1 x2

/-- Store effect of `JapaneseLanguageCreatorUI.show_morphology`: it only reads
the store. -/
def show_morphology_store (v : String → List String) : String → List String := v

/-- Store effect of `JapaneseLanguageCreatorUI.final_showcase`: its only
mutation is through its call `generate_sentences(3)`. -/
def final_showcase_store (v : String → List String)
    (n1 n2 n3 x1 x2 : String) : String → List String :=
  generate_sentences_store v n1 n2 n3 x1 x2

end JP

namespace JP

/-! ## Helper lemmas -/

/-- A concrete syllable-draw stream used to evaluate the model on concrete
inputs: every syllable draws consonant "k", vowel "a", no nasal. -/
def constSyls : Nat → SylChoice := fun _ => ⟨"k", "a", false, "n"⟩

theorem constSyls_valid : ∀ i, ValidSyl (constSyls i) := by
  intro i
  show ValidSyl ⟨"k", "a", false, "n"⟩
  exact ⟨by decide, by decide, by decide⟩

theorem consonant_length : ∀ s ∈ consonants, s.length = 1 := by decide

theorem vowel_length : ∀ s ∈ vowels, s.length = 1 := by decide

theorem generate_syllable_length (ch : SylChoice) (h : ValidSyl ch) :
    2 ≤ (generate_syllable ch).length := by
  obtain ⟨hc, hv, _⟩ := h
  have hc1 : ch.c.length = 1 := consonant_length ch.c hc
  have hv1 : ch.v.length = 1 := vowel_length ch.v hv
  simp only [generate_syllable, String.length_append, hc1, hv1]
  omega

theorem buildWord_length (syls : Nat → SylChoice) (h : ∀ i, ValidSyl (syls i)) :
    ∀ k, 2 * k ≤ (buildWord syls k).length := by
  intro k
  induction k with
  | zero => simp [buildWord]
  | succ k ih =>
    have hsyl := generate_syllable_length (syls k) (h k)
    simp only [buildWord, String.length_append]
    omega

theorem length_pos_ne_empty (s : String) (h : 1 ≤ s.length) : s ≠ "" := by
  intro he
  rw [he] at h
  simp at h

/-! ## Claims about the phonology system -/

/-- C7: every generated syllable is the chosen consonant followed by the
chosen vowel, optionally followed by one nasal-ending option (the chosen
consonant and vowel coming from the configured sets, and the nasal-ending
list containing the empty string). -/
theorem generate_syllable_shape (ch : SylChoice) (h : ValidSyl ch) :
    ch.c ∈ consonants ∧ ch.v ∈ vowels ∧ "" ∈ n_end ∧
    ∃ t, generate_syllable ch = ch.c ++ ch.v ++ t ∧ (t = "" ∨ t ∈ n_end) := by
  obtain ⟨hc, hv, hn⟩ := h
  refine ⟨hc, hv, by decide, if ch.addNasal then ch.n else "", rfl, ?_⟩
  by_cases hb : ch.addNasal
  · rw [if_pos hb]
    exact Or.inr hn
  · rw [if_neg hb]
    exact Or.inl rfl

/-- Witness for C7 at the concrete draw consonant "k", vowel "a", nasal
test fired, nasal option "n". -/
theorem generate_syllable_shape_witness :
    ("k" : String) ∈ consonants ∧ ("a" : String) ∈ vowels ∧ "" ∈ n_end ∧
    ∃ t, generate_syllable ⟨"k", "a", true, "n"⟩ = "k" ++ "a" ++ t ∧
      (t = "" ∨ t ∈ n_end) :=
  generate_syllable_shape ⟨"k", "a", true, "n"⟩ ⟨by decide, by decide, by decide⟩

/-- Counterexample to C3 as stated: with syllable count 0 and the
unrecognized word type "adjective", `generate_word` returns the empty
string. -/
theorem generate_word_empty_cex :
    generate_word (some 0) 2 "adjective" constSyls "ru" "ko" = "" := by
  rfl

/-- C3 (amended): `generate_word` returns a non-empty string for every word
type (recognized or not) whenever the effective syllable count is at least 1
— which covers the default `None` count (drawn from `randint(2,3)`) and
every caller-supplied count in the repository — and, regardless of the
count, whenever the word type is "noun" or "verb"; with an explicit count of
0 and an unrecognized word type it returns the empty string. -/
theorem generate_word_nonempty (syllable_count : Option Nat) (scDraw : Nat)
    (word_type : String) (syls : Nat → SylChoice) (verbSuf nounSuf : String)
    (hs : ∀ i, ValidSyl (syls i))
    (hvs : verbSuf ∈ verb_suffixes) (hns : nounSuf ∈ noun_suffixes)
    (h : 1 ≤ syllable_count.getD scDraw ∨ word_type = "noun" ∨ word_type = "verb") :
    generate_word syllable_count scDraw word_type syls verbSuf nounSuf ≠ "" := by
  have hvl : verbSuf.length = 2 :=
    (by decide : ∀ s ∈ verb_suffixes, s.length = 2) verbSuf hvs
  have hnl : nounSuf.length = 2 :=
    (by decide : ∀ s ∈ noun_suffixes, s.length = 2) nounSuf hns
  refine length_pos_ne_empty _ ?_
  by_cases h1 : word_type = "verb"
  · simp only [generate_word, if_pos h1, String.length_append]
    omega
  · by_cases h2 : word_type = "noun"
    · simp only [generate_word, if_neg h1, if_pos h2, String.length_append]
      omega
    · have hcount : 1 ≤ syllable_count.getD scDraw := by
        rcases h with h | h | h
        · exact h
        · exact absurd h h2
        · exact absurd h h1
      have hb := buildWord_length syls hs (syllable_count.getD scDraw)
      simp only [generate_word, if_neg h1, if_neg h2]
      omega

/-- Witness for C3 (amended): with count 1, word type "adjective" and
concrete draws, the generated word is non-empty. -/
theorem generate_word_nonempty_witness :
    (∀ i, ValidSyl (constSyls i)) ∧
    ("ru" : String) ∈ verb_suffixes ∧ ("ko" : String) ∈ noun_suffixes ∧
    generate_word (some 1) 2 "adjective" constSyls "ru" "ko" ≠ "" :=
  ⟨constSyls_valid, by decide, by decide,
    generate_word_nonempty (some 1) 2 "adjective" constSyls "ru" "ko"
      constSyls_valid (by decide) (by decide) (Or.inl (by decide))⟩

/-- C6: every word produced by `generate_word` with an explicit syllable
count has length at least twice that count, and for word types "noun" and
"verb" the word ends with one of the configured suffixes for that type. -/
theorem generate_word_length_and_suffix (k : Nat) (scDraw : Nat)
    (word_type : String) (syls : Nat → SylChoice) (verbSuf nounSuf : String)
    (hs : ∀ i, ValidSyl (syls i))
    (hvs : verbSuf ∈ verb_suffixes) (hns : nounSuf ∈ noun_suffixes) :
    2 * k ≤ (generate_word (some k) scDraw word_type syls verbSuf nounSuf).length ∧
    (word_type = "noun" → ∃ s ∈ noun_suffixes, ∃ p,
      generate_word (some k) scDraw word_type syls verbSuf nounSuf = p ++ s) ∧
    (word_type = "verb" → ∃ s ∈ verb_suffixes, ∃ p,
      generate_word (some k) scDraw word_type syls verbSuf nounSuf = p ++ s) := by
  have hb := buildWord_length syls hs k
  refine ⟨?_, ?_, ?_⟩
  · by_cases h1 : word_type = "verb"
    · simp only [generate_word, if_pos h1, String.length_append, Option.getD_some]
      omega
    · by_cases h2 : word_type = "noun"
      · simp only [generate_word, if_neg h1, if_pos h2, String.length_append,
          Option.getD_some]
        omega
      · simp only [generate_word, if_neg h1, if_neg h2, Option.getD_some]
        exact hb
  · intro h2
    have h1 : word_type ≠ "verb" := by
      rw [h2]; decide
    exact ⟨nounSuf, hns, buildWord syls k, by
      simp only [generate_word, if_neg h1, if_pos h2, Option.getD_some]⟩
  · intro h1
    exact ⟨verbSuf, hvs, buildWord syls k, by
      simp only [generate_word, if_pos h1, Option.getD_some]⟩

/-- Witness for C6 at count 1, word type "noun" and concrete draws. -/
theorem generate_word_length_and_suffix_witness :
    (∀ i, ValidSyl (constSyls i)) ∧
    2 * 1 ≤ (generate_word (some 1) 2 "noun" constSyls "ru" "ko").length ∧
    (("noun" : String) = "noun" → ∃ s ∈ noun_suffixes, ∃ p,
      generate_word (some 1) 2 "noun" constSyls "ru" "ko" = p ++ s) :=
  ⟨constSyls_valid,
    (generate_word_length_and_suffix 1 2 "noun" constSyls "ru" "ko"
      constSyls_valid (by decide) (by decide)).1,
    (generate_word_length_and_suffix 1 2 "noun" constSyls "ru" "ko"
      constSyls_valid (by decide) (by decide)).2.1⟩

/-! ## Claims about the morphology system -/

/-- C2: with the default rule list installed at construction, applying
"plural" appends "tachi", applying "past" appends "ta", and applying
"negative" prepends "fu", for every word. -/
theorem default_rules_behaviour (w : String) :
    apply_morphology init_default_rules w "plural" = w ++ "tachi" ∧
    apply_morphology init_default_rules w "past" = w ++ "ta" ∧
    apply_morphology init_default_rules w "negative" = "fu" ++ w := by
  refine ⟨?_, ?_, ?_⟩ <;> rfl

/-- C5: when no rule in the list has the requested name, `apply_morphology`
returns the base word unchanged (silent identity, no error value). -/
theorem apply_morphology_no_match (rules : List MorphologyRule)
    (base_word rule_name : String)
    (h : ∀ r ∈ rules, r.name ≠ rule_name) :
    apply_morphology rules base_word rule_name = base_word := by
  induction rules with
  | nil => rfl
  | cons r rest ih =>
    have hr : r.name ≠ rule_name := h r (List.mem_cons_self r rest)
    have hrest : ∀ q ∈ rest, q.name ≠ rule_name := fun q hq =>
      h q (List.mem_cons_of_mem r hq)
    simp only [apply_morphology, if_neg hr]
    exact ih hrest

/-- Witness for C5: the default rules contain no rule named "unknown_rule",
and applying it to "neko" returns "neko". -/
theorem apply_morphology_no_match_witness :
    (∀ r ∈ init_default_rules, r.name ≠ "unknown_rule") ∧
    apply_morphology init_default_rules "neko" "unknown_rule" = "neko" := by
  refine ⟨by decide, ?_⟩
  exact apply_morphology_no_match init_default_rules "neko" "unknown_rule" (by decide)

/-- Counterexample to C8 as stated: in a rule list whose first rule named
"pl" has `rule_type` "weird" (neither "prefix" nor "suffix") and whose
second rule named "pl" is a suffix rule with marker "Y", applying "pl" to
"w" yields "wY": the later rule with the same name IS consulted, because a
matching rule with an unrecognized kind falls through both branches of the
Python `if`/`elif` and the scan continues. -/
theorem apply_morphology_first_match_cex :
    apply_morphology
      (add_rule (add_rule [] "pl" "weird" "X" "m") "pl" "suffix" "Y" "m")
      "w" "pl" = "wY" ∧
    apply_morphology (add_rule [] "pl" "weird" "X" "m") "w" "pl" = "w" := by
  exact ⟨by decide, by decide⟩

/-- C8 (amended): `apply_morphology` uses the first rule in insertion order
whose name equals the requested name AND whose kind is "prefix" or "suffix",
returning marker+base for a prefix rule and base+marker for a suffix rule;
earlier same-name rules of any other kind are skipped, so later same-name
rules are consulted exactly when every earlier match has an unrecognized
kind. -/
theorem apply_morphology_first_effective_match (pre post : List MorphologyRule)
    (r : MorphologyRule) (base rule_name : String)
    (hname : r.name = rule_name)
    (hkind : r.rule_type = "prefix" ∨ r.rule_type = "suffix")
    (hpre : ∀ q ∈ pre, q.name = rule_name →
      q.rule_type ≠ "prefix" ∧ q.rule_type ≠ "suffix") :
    apply_morphology (pre ++ r :: post) base rule_name =
      if r.rule_type = "prefix" then r.marker ++ base else base ++ r.marker := by
  induction pre with
  | nil =>
    simp only [List.nil_append, apply_morphology, if_pos hname]
    rcases hkind with hk | hk
    · rw [if_pos hk, if_pos hk]
    · have hne : r.rule_type ≠ "prefix" := by
        rw [hk]; decide
      rw [if_neg hne, if_pos hk, if_neg hne]
  | cons q rest ih =>
    have hrest : ∀ p ∈ rest, p.name = rule_name →
        p.rule_type ≠ "prefix" ∧ p.rule_type ≠ "suffix" :=
      fun p hp => hpre p (List.mem_cons_of_mem q hp)
    by_cases hq : q.name = rule_name
    · obtain ⟨h1, h2⟩ := hpre q (List.mem_cons_self q rest) hq
      simp only [List.cons_append, apply_morphology, if_pos hq, if_neg h1,
        if_neg h2]
      exact ih hrest
    · simp only [List.cons_append, apply_morphology, if_neg hq]
      exact ih hrest

/-- Witness for C8 (amended): with a skipped "weird"-kind rule before a
suffix rule of the same name, applying the rule appends its marker. -/
theorem apply_morphology_first_effective_match_witness :
    ((⟨"pl", "suffix", "tachi", "m"⟩ : MorphologyRule).name = "pl") ∧
    ((⟨"pl", "suffix", "tachi", "m"⟩ : MorphologyRule).rule_type = "prefix" ∨
      (⟨"pl", "suffix", "tachi", "m"⟩ : MorphologyRule).rule_type = "suffix") ∧
    apply_morphology
        ([⟨"pl", "weird", "X", "m"⟩] ++ (⟨"pl", "suffix", "tachi", "m"⟩ : MorphologyRule) :: [])
        "w" "pl" =
      (if (⟨"pl", "suffix", "tachi", "m"⟩ : MorphologyRule).rule_type = "prefix"
        then (⟨"pl", "suffix", "tachi", "m"⟩ : MorphologyRule).marker ++ "w"
        else "w" ++ (⟨"pl", "suffix", "tachi", "m"⟩ : MorphologyRule).marker) :=
  ⟨by decide, Or.inr (by decide),
    apply_morphology_first_effective_match [⟨"pl", "weird", "X", "m"⟩] []
      ⟨"pl", "suffix", "tachi", "m"⟩ "w" "pl" (by decide) (Or.inr (by decide))
      (by decide)⟩

/-! ## Claims about the syntax system -/

theorem intercalate_go_extends (s : String) :
    ∀ (l : List String) (acc : String),
      ∃ u, String.intercalate.go acc s l = acc ++ u := by
  intro l
  induction l with
  | nil =>
    intro acc
    exact ⟨"", by rw [String.intercalate.go, String.append_empty]⟩
  | cons a as ih =>
    intro acc
    obtain ⟨u, hu⟩ := ih (acc ++ s ++ a)
    refine ⟨s ++ a ++ u, ?_⟩
    rw [String.intercalate.go, hu, String.append_assoc, String.append_assoc,
      String.append_assoc]

theorem intercalate_cons_cons (a b : String) (l : List String) :
    ∃ u, String.intercalate " " (a :: b :: l) = a ++ " " ++ u := by
  obtain ⟨u, hu⟩ := intercalate_go_extends " " l (a ++ " " ++ b)
  refine ⟨b ++ u, ?_⟩
  rw [String.intercalate, String.intercalate.go, hu, String.append_assoc]

theorem sentence_parts_head (subject verb obj : String) (add_adverb : Bool)
    (adverb sp op dp : String) :
    ∃ tail : List String, tail ≠ [] ∧
      sentence_parts subject verb obj add_adverb adverb sp op dp =
        (subject ++ sp) :: tail := by
  by_cases h1 : obj ≠ ""
  · by_cases h2 : add_adverb ∧ adverb ≠ ""
    · refine ⟨[obj ++ op, adverb ++ dp, verb], by simp, ?_⟩
      simp only [sentence_parts, if_pos h1, if_pos h2]
      rfl
    · refine ⟨[obj ++ op, verb], by simp, ?_⟩
      simp only [sentence_parts, if_pos h1, if_neg h2]
      rfl
  · by_cases h2 : add_adverb ∧ adverb ≠ ""
    · refine ⟨[adverb ++ dp, verb], by simp, ?_⟩
      simp only [sentence_parts, if_neg h1, if_pos h2]
      rfl
    · refine ⟨[verb], by simp, ?_⟩
      simp only [sentence_parts, if_neg h1, if_neg h2]
      rfl

/-- C1: for every combination of optional object and adverb presence (and
all particle draws), the sentence returned by `generate_sentence` is the
preceding phrases joined by single spaces, followed by a space, the verb,
and the trailing period: the verb is the final word, immediately before the
period. -/
theorem generate_sentence_verb_last (subject verb obj : String)
    (add_adverb : Bool) (adverb sp op dp : String) :
    ∃ pre : List String, pre ≠ [] ∧
      generate_sentence subject verb obj add_adverb adverb sp op dp =
        String.intercalate " " pre ++ " " ++ verb ++ "." := by
  by_cases h1 : obj ≠ ""
  · by_cases h2 : add_adverb ∧ adverb ≠ ""
    · refine ⟨[subject ++ sp, obj ++ op, adverb ++ dp], by simp, ?_⟩
      simp only [generate_sentence, sentence_parts, if_pos h1, if_pos h2]
      rfl
    · refine ⟨[subject ++ sp, obj ++ op], by simp, ?_⟩
      simp only [generate_sentence, sentence_parts, if_pos h1, if_neg h2]
      rfl
  · by_cases h2 : add_adverb ∧ adverb ≠ ""
    · refine ⟨[subject ++ sp, adverb ++ dp], by simp, ?_⟩
      simp only [generate_sentence, sentence_parts, if_neg h1, if_pos h2]
      rfl
    · refine ⟨[subject ++ sp], by simp, ?_⟩
      simp only [generate_sentence, sentence_parts, if_neg h1, if_neg h2]
      rfl

/-- C10: the parts list of `generate_sentence` contains the object phrase
iff `obj` is non-empty, the adverb phrase iff `add_adverb` holds and
`adverb` is non-empty, and always starts with the subject phrase
`subject ++ particle` and ends with the verb; when the subject is the empty
string, the sentence begins with the bare subject particle. -/
theorem sentence_parts_presence (subject verb obj : String)
    (add_adverb : Bool) (adverb sp op dp : String) :
    (sentence_parts subject verb obj add_adverb adverb sp op dp =
      [subject ++ sp] ++ (if obj ≠ "" then [obj ++ op] else []) ++
        (if add_adverb ∧ adverb ≠ "" then [adverb ++ dp] else []) ++ [verb]) ∧
    (subject = "" → ∃ rest,
      generate_sentence subject verb obj add_adverb adverb sp op dp =
        sp ++ " " ++ rest) := by
  constructor
  · by_cases h1 : obj ≠ "" <;> by_cases h2 : add_adverb ∧ adverb ≠ "" <;>
      simp [sentence_parts, h1, h2]
  · intro hsubj
    subst hsubj
    obtain ⟨tail, hne, heq⟩ :=
      sentence_parts_head "" verb obj add_adverb adverb sp op dp
    rcases tail with _ | ⟨b, l⟩
    · exact absurd rfl hne
    · obtain ⟨u, hu⟩ := intercalate_cons_cons ("" ++ sp) b l
      refine ⟨u ++ ".", ?_⟩
      rw [generate_sentence, heq, hu, String.empty_append, String.append_assoc]

/-! ## Claims about the vocabulary store -/

theorem store_extends_trans {a b c : List String}
    (h1 : ∃ t, b = a ++ t) (h2 : ∃ u, c = b ++ u) : ∃ w, c = a ++ w := by
  obtain ⟨t, ht⟩ := h1
  obtain ⟨u, hu⟩ := h2
  exact ⟨t ++ u, by rw [hu, ht, List.append_assoc]⟩

theorem recordWord_extends (v : String → List String) (c w k : String) :
    ∃ t, recordWord v c w k = v k ++ t := by
  by_cases h : k = c
  · subst h
    exact ⟨[w], by simp [recordWord, updateStore]⟩
  · exact ⟨[], by simp [recordWord, updateStore, h]⟩

theorem ensure_vocab_extends (v : String → List String)
    (n1 n2 n3 x1 x2 k : String) :
    ∃ t, ensure_vocab v n1 n2 n3 x1 x2 k = v k ++ t := by
  have hverb : ∀ (w : String → List String), (∃ t, w k = v k ++ t) →
      ∃ t, (if w "verb" = [] then recordWord (recordWord w "verb" x1) "verb" x2
            else w) k = v k ++ t := by
    intro w hk
    by_cases h2 : w "verb" = []
    · rw [if_pos h2]
      exact store_extends_trans
        (store_extends_trans hk (recordWord_extends w "verb" x1 k))
        (recordWord_extends _ "verb" x2 k)
    · rw [if_neg h2]
      exact hk
  simp only [ensure_vocab]
  by_cases h1 : v "noun" = []
  · rw [if_pos h1]
    exact hverb _ (store_extends_trans
      (store_extends_trans (recordWord_extends v "noun" n1 k)
        (recordWord_extends _ "noun" n2 k))
      (recordWord_extends _ "noun" n3 k))
  · rw [if_neg h1]
    exact hverb v ⟨[], (List.append_nil _).symm⟩

/-- C9: the vocabulary store is append-only: for every generation operation,
every class's word list before the operation is a prefix (initial segment)
of that class's list after it; nothing is removed, reordered or
deduplicated. -/
theorem store_append_only (v : String → List String)
    (w1 w2 w3 w4 w5 n1 n2 n3 x1 x2 k : String) :
    (∃ t, generate_vocabulary_store v w1 w2 w3 w4 w5 k = v k ++ t) ∧
    (∃ t, generate_sentences_store v n1 n2 n3 x1 x2 k = v k ++ t) ∧
    (∃ t, show_morphology_store v k = v k ++ t) ∧
    (∃ t, final_showcase_store v n1 n2 n3 x1 x2 k = v k ++ t) := by
  refine ⟨?_, ensure_vocab_extends v n1 n2 n3 x1 x2 k,
    ⟨[], (List.append_nil _).symm⟩, ensure_vocab_extends v n1 n2 n3 x1 x2 k⟩
  exact store_extends_trans (store_extends_trans (store_extends_trans
    (store_extends_trans (recordWord_extends v "noun" w1 k)
      (recordWord_extends _ "verb" w2 k))
    (recordWord_extends _ "noun" w3 k))
    (recordWord_extends _ "adjective" w4 k))
    (recordWord_extends _ "noun" w5 k)

theorem ensure_vocab_empty_eval (v : String → List String)
    (n1 n2 n3 x1 x2 : String) (h : ∀ k, v k = []) :
    ensure_vocab v n1 n2 n3 x1 x2 "noun" = [n1, n2, n3] ∧
    ensure_vocab v n1 n2 n3 x1 x2 "verb" = [x1, x2] := by
  constructor <;> simp [ensure_vocab, recordWord, updateStore, h]

theorem randomChoice_isSome (l : List String) (h : l ≠ []) (i : Nat) :
    (randomChoice l i).isSome = true := by
  have hlen : 0 < l.length := List.length_pos.mpr h
  have hlt : i % l.length < l.length := Nat.mod_lt _ hlen
  simp [randomChoice, List.getElem?_eq_getElem hlt]

/-- C4: starting from an initially empty store, `generate_sentences` first
seeds 3 noun words and 2 verb words (before any sampling happens in its
sentence loop), so every random choice from the noun or verb class in the
loop is from a non-empty list and the empty-collection error branch of
`random.choice` is unreachable. -/
theorem generate_sentences_seeds_vocab (v : String → List String)
    (n1 n2 n3 x1 x2 : String) (h : ∀ k, v k = []) :
    3 ≤ (generate_sentences_store v n1 n2 n3 x1 x2 "noun").length ∧
    2 ≤ (generate_sentences_store v n1 n2 n3 x1 x2 "verb").length ∧
    (∀ i, (randomChoice (generate_sentences_store v n1 n2 n3 x1 x2 "noun") i).isSome
      = true) ∧
    (∀ i, (randomChoice (generate_sentences_store v n1 n2 n3 x1 x2 "verb") i).isSome
      = true) := by
  obtain ⟨hn, hv⟩ := ensure_vocab_empty_eval v n1 n2 n3 x1 x2 h
  have hn0 : generate_sentences_store v n1 n2 n3 x1 x2 "noun" = [n1, n2, n3] := hn
  have hv0 : generate_sentences_store v n1 n2 n3 x1 x2 "verb" = [x1, x2] := hv
  refine ⟨by rw [hn0]; rfl, by rw [hv0]; rfl, ?_, ?_⟩
  · intro i
    exact randomChoice_isSome _ (by rw [hn0]; simp) i
  · intro i
    exact randomChoice_isSome _ (by rw [hv0]; simp) i

/-- Witness for C4 at the freshly constructed empty store and concrete
fallback words, sampling both classes at concrete indices. -/
theorem generate_sentences_seeds_vocab_witness :
    (∀ k, emptyStore k = []) ∧
    3 ≤ (generate_sentences_store emptyStore "a" "b" "c" "d" "e" "noun").length ∧
    2 ≤ (generate_sentences_store emptyStore "a" "b" "c" "d" "e" "verb").length ∧
    (randomChoice (generate_sentences_store emptyStore "a" "b" "c" "d" "e" "noun") 0).isSome
      = true ∧
    (randomChoice (generate_sentences_store emptyStore "a" "b" "c" "d" "e" "verb") 7).isSome
      = true :=
  ⟨fun _ => rfl,
    (generate_sentences_seeds_vocab emptyStore "a" "b" "c" "d" "e" (fun _ => rfl)).1,
    (generate_sentences_seeds_vocab emptyStore "a" "b" "c" "d" "e" (fun _ => rfl)).2.1,
    (generate_sentences_seeds_vocab emptyStore "a" "b" "c" "d" "e" (fun _ => rfl)).2.2.1 0,
    (generate_sentences_seeds_vocab emptyStore "a" "b" "c" "d" "e" (fun _ => rfl)).2.2.2 7⟩

/-- Witness for C10 with subject empty, object "sakana", adverb absent, and
particle draws "wa", "wo", "e". -/
theorem sentence_parts_presence_witness :
    (sentence_parts "" "miru" "sakana" false "" "wa" "wo" "e" =
      [("" : String) ++ "wa"] ++ (if ("sakana" : String) ≠ "" then ["sakana" ++ "wo"] else []) ++
        (if false ∧ ("" : String) ≠ "" then ["" ++ "e"] else []) ++ ["miru"]) ∧
    ∃ rest, generate_sentence "" "miru" "sakana" false "" "wa" "wo" "e" =
      "wa" ++ " " ++ rest :=
  ⟨(sentence_parts_presence "" "miru" "sakana" false "" "wa" "wo" "e").1,
    (sentence_parts_presence "" "miru" "sakana" false "" "wa" "wo" "e").2 rfl⟩

end JP
